import Mathlib

/-!
Verification of the Tweequick hazard-aware route safety and risk scoring
engine, embedded from `LamdaFunctions/3-metData.py` and
`LamdaFunctions/4-polyline.py`.

Numbers are modelled over `ℚ` (Python floats / Decimals), with Python
rounding (`round`, round-half-to-even) made explicit.  Fallible Python
operations (`int(...)`, `float(...)` raising `ValueError`, `min([])`
raising on an empty sequence) are modelled with `Option` / error results.
The great-circle distance `haversine_km` (transcendental float math) is
abstracted as an explicit distance-function parameter threaded through the
geometric predicates, exactly where the source calls `haversine_km`.
-/

namespace Tweequick

/-- A dynamic (JSON-ish) scalar value, as the Python code receives for
severity, urgency and score fields: `None`, a number, or a string. -/
inductive Val where
  | vnone
  | vnum (q : ℚ)
  | vstr (s : String)
deriving DecidableEq

/-- Python truthiness of a `Val` (`None`, `0`, `""` are falsy). -/
def truthy : Val → Bool
  | .vnone => false
  | .vnum q => q != 0
  | .vstr s => s != ""

/-- Value of a nonempty all-digit character list (helper for `int`/`float`
parsing); `none` when empty or a non-digit occurs. -/
def digitsVal (cs : List Char) : Option ℕ :=
  if cs.isEmpty then none
  else cs.foldl
    (fun acc c => acc.bind fun n => if c.isDigit then some (10 * n + (c.toNat - 48)) else none)
    (some 0)

/-- Model of Python `int(s)` on a string: optional sign followed by digits,
surrounding whitespace stripped; `none` models `ValueError`. -/
def pyInt (s : String) : Option ℤ :=
  match s.trim.toList with
  | '+' :: rest => (digitsVal rest).map (fun n => (n : ℤ))
  | '-' :: rest => (digitsVal rest).map (fun n => -(n : ℤ))
  | cs => (digitsVal cs).map (fun n => (n : ℤ))

/-- Unsigned decimal literal `digits[.digits]` as a rational; `none` models
`ValueError`.  (Exponent forms and `inf`/`nan`, which the repository never
feeds to `float`, are out of the model.) -/
def pyFracVal (cs : List Char) : Option ℚ :=
  let ip := cs.takeWhile Char.isDigit
  let rest := cs.dropWhile Char.isDigit
  match rest with
  | [] => (digitsVal ip).map (fun n => (n : ℚ))
  | '.' :: fp =>
      if fp.all Char.isDigit && !(ip.isEmpty && fp.isEmpty) then
        some ((ip.foldl (fun n c => 10 * n + (c.toNat - 48)) 0 : ℚ)
              + (fp.foldl (fun n c => 10 * n + (c.toNat - 48)) 0 : ℚ) / (10 : ℚ) ^ fp.length)
      else none
  | _ => none

/-- Model of Python `float(s)` on a string: optional sign and a decimal
literal, surrounding whitespace stripped. -/
def pyFloat (s : String) : Option ℚ :=
  match s.trim.toList with
  | '+' :: rest => pyFracVal rest
  | '-' :: rest => (pyFracVal rest).map Neg.neg
  | cs => pyFracVal cs

/-- Model of Python `float(x)` on a dynamic value: numbers pass through,
strings are parsed, `None` raises (`none`). -/
def pyFloatOfVal : Val → Option ℚ
  | .vnone => none
  | .vnum q => some q
  | .vstr s => pyFloat s

/-- Model of Python `round(q)` (banker's rounding, ties to even). -/
def pyRound (q : ℚ) : ℤ :=
  if q - (⌊q⌋ : ℚ) < 1 / 2 then ⌊q⌋
  else if 1 / 2 < q - (⌊q⌋ : ℚ) then ⌊q⌋ + 1
  else if ⌊q⌋ % 2 = 0 then ⌊q⌋ else ⌊q⌋ + 1

/-- Model of Python `round(q, 1)`: round to one decimal, ties to even. -/
def round1 (q : ℚ) : ℚ := (pyRound (q * 10) : ℚ) / 10

/-- `max lo (min hi q)`, the clamping pattern used throughout the source. -/
def clampQ (lo hi q : ℚ) : ℚ := max lo (min hi q)

/-! ## Severity model (`3-metData.py`, `_severity_to_level` and friends) -/

/-- `_severity_to_level` (3-metData.py lines 42-59): `None` gives 0; an
input parsing as an integer is clamped to `[0,4]` (a numeric value is
truncated toward zero as Python `int` does); otherwise case-insensitive
severity names are mapped, anything unknown to 0. -/
def severity_to_level (sev : Val) : ℤ :=
  match sev with
  | .vnone => 0
  | .vnum q => max 0 (min 4 (if q < 0 then -⌊-q⌋ else ⌊q⌋))
  | .vstr s =>
    match pyInt s with
    | some n => max 0 (min 4 n)
    | none =>
      let t := s.trim.toLower
      if t ∈ ["red", "emergency", "severe"] then 4
      else if t ∈ ["orange", "warning"] then 3
      else if t ∈ ["amber", "watch"] then 2
      else if t ∈ ["yellow", "advisory", "info", "information"] then 1
      else 0

/-- One MET warning record, carrying the three synonymous severity fields
the source reads (`severity`, `level`, `severity_level`); an absent field
is `Val.vnone`. -/
structure WarningResult where
  severity : Val
  level : Val
  severity_level : Val
deriving DecidableEq

/-- The field chain `r.get("severity") or r.get("level") or
r.get("severity_level")` from `_max_severity_level` (line 69): Python `or`
returns the first truthy operand, else the last one. -/
def sevField (r : WarningResult) : Val :=
  if truthy r.severity then r.severity
  else if truthy r.level then r.level
  else r.severity_level

/-- `_max_severity_level` (3-metData.py lines 66-73): running maximum of
the per-result levels, starting from 0. -/
def max_severity_level (results : List WarningResult) : ℤ :=
  results.foldl (fun m r => max m (severity_to_level (sevField r))) 0

/-! ## Risk fusion (`3-metData.py`, `_compute_final_risk`) -/

/-- The classification ladder of `_compute_final_risk` (lines 80-87):
risk-level name and color from the rounded final score. -/
def classify (final_score : ℚ) : String × String :=
  if final_score ≤ 3 then ("Low", "green")
  else if final_score ≤ 6 then ("Moderate", "yellow")
  else if final_score ≤ 8 then ("High", "orange")
  else ("Critical", "red")

/-- `_compute_final_risk` (3-metData.py lines 76-88).  The argument
expression `float(nlp_urgency_score or 0.0)` substitutes `0.0` for a falsy
urgency and raises (`none`) when `float` fails on a truthy non-numeric
value. -/
def compute_final_risk (nlp_urgency_score : Val) (met_level : ℤ) :
    Option (ℚ × String × String) :=
  let arg := if truthy nlp_urgency_score then nlp_urgency_score else .vnum 0
  match pyFloatOfVal arg with
  | none => none
  | some x =>
    let nlp := clampQ 0 10 x
    let met_norm := clampQ 0 10 ((met_level : ℚ) * (5 / 2))
    let final_score := round1 (nlp * (1 / 2) + met_norm * (1 / 2))
    some (final_score, classify final_score)

/-- `db_insert_risk_assessment` (3-metData.py lines 253-268) clamps the
stored score: `max(1.0, min(10.0, float(final_score)))`; the risk level is
stored as passed.  This composes it with `_compute_final_risk` exactly as
`lambda_handler` (lines 345, 363-370) does, yielding the persisted
`(final_score, risk_level)` pair. -/
def written_assessment (nlp_urgency_score : Val) (met_level : ℤ) :
    Option (ℚ × String) :=
  (compute_final_risk nlp_urgency_score met_level).map
    (fun r => (clampQ 1 10 r.1, r.2.1))

/-! ## Hazard radius model (`4-polyline.py` lines 157-225) -/

/-- Default per-level radius in meters (4-polyline.py line 166; the
`HAZARD_RADIUS_*` environment overrides are outside the model). -/
def RADIUS_LOW_M : ℤ := 1500

/-- Default per-level radius in meters (4-polyline.py line 167). -/
def RADIUS_MEDIUM_M : ℤ := 3000

/-- Default per-level radius in meters (4-polyline.py line 168). -/
def RADIUS_HIGH_M : ℤ := 6000

/-- Default per-level radius in meters (4-polyline.py line 169). -/
def RADIUS_CRITICAL_M : ℤ := 10000

/-- `weather_scale` (4-polyline.py lines 171-180): multiplicative factor
from the weather descriptor; empty string is falsy, hence factor 1. -/
def weather_scale (weather : String) : ℚ :=
  if weather = "" then 1
  else
    let w := weather.trim.toLower
    if w ∈ ["storm", "thunderstorm", "heavy rain", "tropical storm"] then 9 / 5
    else if w ∈ ["rain", "fog", "haze", "drizzle"] then 13 / 10
    else 1

/-- `hazard_radius_from_level` (4-polyline.py lines 182-192); a `None`
(non-string) level falls to the Low radius. -/
def hazard_radius_from_level (level : Option String) : ℤ :=
  match level with
  | none => RADIUS_LOW_M
  | some lv =>
    let l := lv.trim.toLower
    if l ∈ ["critical", "very high", "severe"] then RADIUS_CRITICAL_M
    else if l = "high" then RADIUS_HIGH_M
    else if l ∈ ["medium", "moderate"] then RADIUS_MEDIUM_M
    else RADIUS_LOW_M

/-- `hazard_radius_from_score` (4-polyline.py lines 194-208): `float(score)`
failure (`none`) degrades to the Low radius, otherwise thresholds 80/60/40. -/
def hazard_radius_from_score (score : Val) : ℤ :=
  match pyFloatOfVal score with
  | none => RADIUS_LOW_M
  | some s =>
    if 80 ≤ s then RADIUS_CRITICAL_M
    else if 60 ≤ s then RADIUS_HIGH_M
    else if 40 ≤ s then RADIUS_MEDIUM_M
    else RADIUS_LOW_M

/-- A hazard row as used by the route filter: center coordinates, the
optional `risk_level` / `final_score` fields read back from the store
(`none` models both an absent key and an explicit `None`), and the
derived `radius_m`.  The carried-through metadata fields (`id`,
`district`, `recommendation`, `calculated_at`) play no role in the core
logic and are omitted. -/
structure Hazard where
  lat : ℚ
  lng : ℚ
  risk_level : Option String
  final_score : Option Val
  radius_m : Option ℤ
deriving DecidableEq

/-- The per-hazard base radius of `annotate_hazards_with_radius`
(4-polyline.py lines 215-221): `risk_level` if present and non-`None`,
else `final_score`, else the Low radius. -/
def hazard_base_radius (hz : Hazard) : ℤ :=
  match hz.risk_level with
  | some lv => hazard_radius_from_level (some lv)
  | none =>
    match hz.final_score with
    | some v => hazard_radius_from_score v
    | none => RADIUS_LOW_M

/-- `annotate_hazards_with_radius` (4-polyline.py lines 210-225): each
hazard gets `radius_m = int(round(base_r * scale))`. -/
def annotate_hazards_with_radius (hazards : List Hazard) (weather : String) : List Hazard :=
  let scale := weather_scale weather
  hazards.map fun hz =>
    { hz with radius_m := some (pyRound ((hazard_base_radius hz : ℚ) * scale)) }

/-! ## Route safety filter and selector (`4-polyline.py` lines 228-390) -/

/-- A decoded route vertex `(lat, lng)`. -/
abbrev Point := ℚ × ℚ

/-- The great-circle distance function in km (`haversine_km`,
4-polyline.py lines 50-56).  Its transcendental float formula is kept
abstract; the geometric predicates below are parametric in it, exactly at
the call sites of `haversine_km`. -/
abbrev DistFn := Point → Point → ℚ

/-- The radius used by the route filter (4-polyline.py line 233):
`hz.get("radius_m") or hazard_radius_from_level(hz.get("risk_level"))` —
Python `or` replaces a missing or zero (falsy) `radius_m` by the
level-derived radius. -/
def hazard_eff_radius (hz : Hazard) : ℤ :=
  match hz.radius_m with
  | some r => if r ≠ 0 then r else hazard_radius_from_level hz.risk_level
  | none => hazard_radius_from_level hz.risk_level

/-- `route_intersects_hazard` (4-polyline.py lines 228-236): true when any
route vertex is strictly within some hazard's radius (`dist_m < r`). -/
def route_intersects_hazard (dist : DistFn) (points : List Point) (hazards : List Hazard) : Bool :=
  points.any fun p => hazards.any fun hz =>
    decide (dist p (hz.lat, hz.lng) * 1000 < (hazard_eff_radius hz : ℚ))

/-- One candidate route from the routing collaborator: encoded polyline,
its decoded points (the external polyline codec is a collaborator), the
parsed `"<n>s"` duration when the field is present, and `distanceMeters`. -/
structure Route where
  polyline : String
  points : List Point
  duration : Option ℤ
  distanceMeters : ℤ
deriving DecidableEq

/-- Duration extraction (4-polyline.py line 356): a route without a
`duration` field is assigned `0`. -/
def route_duration_s (r : Route) : ℤ := r.duration.getD 0

/-- A scored (safe) route as appended at 4-polyline.py lines 359-364. -/
structure Scored where
  polyline : String
  duration_s : ℤ
  distance_m : ℤ
  min_dist : ℚ
deriving DecidableEq

/-- The generator feeding `min` at 4-polyline.py lines 350-354: distances
in meters from every route point to every hazard center. -/
def dist_list (dist : DistFn) (hazards : List Hazard) (points : List Point) : List ℚ :=
  hazards.flatMap fun hz => points.map fun p => dist p (hz.lat, hz.lng) * 1000

/-- `min` of a nonempty list (the `[]` case is junk; Python `min` raises
there, which `score_routes` models explicitly). -/
def list_min : List ℚ → ℚ
  | [] => 0
  | x :: xs => xs.foldl min x

/-- The scored record built for a safe route (4-polyline.py lines 350-364). -/
def scored_of (dist : DistFn) (hazards : List Hazard) (r : Route) : Scored :=
  ⟨r.polyline, route_duration_s r, r.distanceMeters, list_min (dist_list dist hazards r.points)⟩

/-- The scoring loop of `lambda_handler` (4-polyline.py lines 343-364):
unsafe routes are skipped; for a safe route, `min` over an empty
hazard-point product raises `ValueError` (modelled as `.error`, caught by
the handler's top-level `except` into a 500 response). -/
def score_routes (dist : DistFn) (routes : List Route) (hazards : List Hazard) :
    Except String (List Scored) :=
  match routes with
  | [] => .ok []
  | r :: rest =>
    if route_intersects_hazard dist r.points hazards then
      score_routes dist rest hazards
    else
      match dist_list dist hazards r.points with
      | [] => .error "min() arg is an empty sequence"
      | x :: xs =>
        (score_routes dist rest hazards).map
          (fun tail => (⟨r.polyline, route_duration_s r, r.distanceMeters, xs.foldl min x⟩ : Scored) :: tail)

/-- Stable insertion of a scored route into a duration-sorted list: on
ties the inserted (originally earlier) element goes first, matching the
stability of Python `sorted`. -/
def insert_by_duration (s : Scored) : List Scored → List Scored
  | [] => [s]
  | t :: ts =>
    if s.duration_s ≤ t.duration_s then s :: t :: ts else t :: insert_by_duration s ts

/-- Stable sort by ascending `duration_s`, modelling
`sorted(scored, key=lambda x: x["duration_s"])` (4-polyline.py line 372). -/
def sort_by_duration : List Scored → List Scored
  | [] => []
  | s :: ss => insert_by_duration s (sort_by_duration ss)

/-- The list of scored safe routes the loop of 4-polyline.py lines 343-364
accumulates (in candidate order) when no `min`-over-empty error occurs. -/
def scored_list (dist : DistFn) (routes : List Route) (hazards : List Hazard) : List Scored :=
  (routes.filter fun r => !route_intersects_hazard dist r.points hazards).map
    (scored_of dist hazards)

/-- The first element of a list achieving the minimal `duration_s` (kept
element on ties is the earlier one) — the observable head of a stable
ascending sort. -/
def first_min : List Scored → Option Scored
  | [] => none
  | x :: xs =>
    match first_min xs with
    | none => some x
    | some y => some (if y.duration_s < x.duration_s then y else x)

/-- The three outcomes of `lambda_handler`'s route selection: the 500
error path (an exception reached the top-level `except`), the
"No safe routes found" body, and the success body (best route,
alternative polylines, hazards). -/
inductive SelectorResult where
  | httpError (msg : String)
  | noSafeRoutes (hazards : List Hazard)
  | ok (best : Scored) (alternatives : List String) (hazards : List Hazard)
deriving DecidableEq

/-- The selection tail of `lambda_handler` (4-polyline.py lines 366-390)
on a scored list: empty means "No safe routes found"; otherwise the head of
the duration-sorted list is the best route and the alternatives are the
polylines of scored routes whose polyline differs from the best one. -/
def select_from_scored (scored : List Scored) (hazards : List Hazard) : SelectorResult :=
  match sort_by_duration scored with
  | [] => .noSafeRoutes hazards
  | best :: _ =>
    .ok best ((scored.filter fun r => r.polyline != best.polyline).map fun r => r.polyline)
      hazards

/-- Scoring followed by selection (4-polyline.py lines 343-390), with the
`ValueError` from `min()` surfacing as the 500 error outcome. -/
def select_routes (dist : DistFn) (routes : List Route) (hazards : List Hazard) : SelectorResult :=
  match score_routes dist routes hazards with
  | .error e => .httpError e
  | .ok scored => select_from_scored scored hazards

/-- `lambda_handler`'s hazard-and-route pipeline (4-polyline.py lines
337-390): annotate the freshly fetched hazards with radii, then filter
and select routes. -/
def handler_select (dist : DistFn) (routes : List Route) (hazards_raw : List Hazard)
    (weather : String) : SelectorResult :=
  select_routes dist routes (annotate_hazards_with_radius hazards_raw weather)

/-! ## Helper lemmas -/

theorem pyRound_bounds (q : ℚ) : q - 1 / 2 ≤ (pyRound q : ℚ) ∧ (pyRound q : ℚ) ≤ q + 1 / 2 := by
  have h1 : ((⌊q⌋ : ℤ) : ℚ) ≤ q := Int.floor_le q
  have h2 : q < ((⌊q⌋ : ℤ) : ℚ) + 1 := Int.lt_floor_add_one q
  unfold pyRound
  split_ifs with ha hb hc <;> constructor <;> push_cast <;> linarith

theorem round1_bounds {q : ℚ} (h0 : 0 ≤ q) (h10 : q ≤ 10) : 0 ≤ round1 q ∧ round1 q ≤ 10 := by
  obtain ⟨hl, hu⟩ := pyRound_bounds (q * 10)
  have h3 : (-1 : ℤ) < pyRound (q * 10) := by
    have h : (-1 : ℚ) < (pyRound (q * 10) : ℚ) := by linarith
    exact_mod_cast h
  have h4 : pyRound (q * 10) < 101 := by
    have h : (pyRound (q * 10) : ℚ) < 101 := by linarith
    exact_mod_cast h
  have hge : (0 : ℤ) ≤ pyRound (q * 10) := by omega
  have hle : pyRound (q * 10) ≤ 100 := by omega
  unfold round1
  constructor
  · positivity
  · rw [div_le_iff₀ (by norm_num : (0 : ℚ) < 10)]
    exact_mod_cast hle

theorem pyRound_intCast (n : ℤ) : pyRound (n : ℚ) = n := by
  unfold pyRound
  rw [Int.floor_intCast]
  norm_num

theorem tl_storm : ("storm" : String).trim.toLower = "storm" := by with_unfolding_all rfl

theorem tl_thunderstorm : ("thunderstorm" : String).trim.toLower = "thunderstorm" := by
  with_unfolding_all rfl

theorem tl_heavy_rain : ("heavy rain" : String).trim.toLower = "heavy rain" := by
  with_unfolding_all rfl

theorem tl_tropical : ("tropical storm" : String).trim.toLower = "tropical storm" := by
  with_unfolding_all rfl

theorem tl_rain : ("rain" : String).trim.toLower = "rain" := by with_unfolding_all rfl

theorem tl_fog : ("fog" : String).trim.toLower = "fog" := by with_unfolding_all rfl

theorem tl_haze : ("haze" : String).trim.toLower = "haze" := by with_unfolding_all rfl

theorem tl_drizzle : ("drizzle" : String).trim.toLower = "drizzle" := by with_unfolding_all rfl

theorem tl_sunny : ("sunny" : String).trim.toLower = "sunny" := by with_unfolding_all rfl

theorem tl_critical : ("Critical" : String).trim.toLower = "critical" := by
  with_unfolding_all rfl

theorem clampQ_eq_self {lo hi q : ℚ} (h1 : lo ≤ q) (h2 : q ≤ hi) : clampQ lo hi q = q := by
  unfold clampQ
  rw [min_eq_right h2, max_eq_right h1]

theorem clampQ_bounds (lo hi q : ℚ) (h : lo ≤ hi) :
    lo ≤ clampQ lo hi q ∧ clampQ lo hi q ≤ hi := by
  unfold clampQ
  exact ⟨le_max_left _ _, max_le h (min_le_left _ _)⟩

theorem classify_thresholds (s : ℚ) :
    (s ≤ 3 → classify s = ("Low", "green")) ∧
    (3 < s → s ≤ 6 → classify s = ("Moderate", "yellow")) ∧
    (6 < s → s ≤ 8 → classify s = ("High", "orange")) ∧
    (8 < s → classify s = ("Critical", "red")) := by
  unfold classify
  refine ⟨fun h => by rw [if_pos h], fun h1 h2 => ?_, fun h1 h2 => ?_, fun h => ?_⟩
  · rw [if_neg (by linarith), if_pos h2]
  · rw [if_neg (by linarith), if_neg (by linarith), if_pos h2]
  · rw [if_neg (by linarith), if_neg (by linarith), if_neg (by linarith)]

theorem compute_final_risk_vnum (u : ℚ) (m : ℤ) :
    compute_final_risk (.vnum u) m =
      some (round1 (clampQ 0 10 u * (1 / 2) + clampQ 0 10 ((m : ℚ) * (5 / 2)) * (1 / 2)),
        classify (round1 (clampQ 0 10 u * (1 / 2) + clampQ 0 10 ((m : ℚ) * (5 / 2)) * (1 / 2)))) := by
  by_cases h : u = 0
  · subst h
    simp [compute_final_risk, truthy, pyFloatOfVal]
  · simp [compute_final_risk, truthy, pyFloatOfVal, bne_iff_ne, h]

theorem compute_final_risk_classify {v : Val} {m : ℤ} {s : ℚ} {rl c : String}
    (h : compute_final_risk v m = some (s, rl, c)) :
    0 ≤ s ∧ s ≤ 10 ∧ (rl, c) = classify s := by
  simp only [compute_final_risk] at h
  rcases hx : pyFloatOfVal (if truthy v then v else Val.vnum 0) with _ | x
  · rw [hx] at h
    simp at h
  · rw [hx] at h
    simp only [Option.some.injEq, Prod.mk.injEq] at h
    obtain ⟨hs, hcl⟩ := h
    have hnlp := clampQ_bounds 0 10 x (by norm_num)
    have hmet := clampQ_bounds 0 10 ((m : ℚ) * (5 / 2)) (by norm_num)
    have hin0 : 0 ≤ clampQ 0 10 x * (1 / 2) + clampQ 0 10 ((m : ℚ) * (5 / 2)) * (1 / 2) := by
      nlinarith [hnlp.1, hmet.1]
    have hin10 : clampQ 0 10 x * (1 / 2) + clampQ 0 10 ((m : ℚ) * (5 / 2)) * (1 / 2) ≤ 10 := by
      nlinarith [hnlp.2, hmet.2]
    obtain ⟨hb0, hb10⟩ := round1_bounds hin0 hin10
    subst hs
    exact ⟨hb0, hb10, hcl.symm⟩

theorem written_assessment_cases {u : Val} {m : ℤ} {w : ℚ} {l : String}
    (h : written_assessment u m = some (w, l)) :
    ∃ s, 0 ≤ s ∧ s ≤ 10 ∧ w = max 1 s ∧ l = (classify s).1 := by
  unfold written_assessment at h
  rcases hc : compute_final_risk u m with _ | ⟨s, rl, c⟩
  · rw [hc] at h
    simp at h
  · rw [hc] at h
    simp only [Option.map_some', Option.some.injEq, Prod.mk.injEq] at h
    obtain ⟨hw, hl⟩ := h
    obtain ⟨hs0, hs10, hcl⟩ := compute_final_risk_classify hc
    refine ⟨s, hs0, hs10, ?_, ?_⟩
    · rw [← hw]
      unfold clampQ
      rw [min_eq_right hs10]
    · rw [← hl]
      exact congrArg Prod.fst hcl

/-! ## Claim theorems -/

/-- C4: for every urgency in `[0,10]` and metLevel in `[0,4]`,
`computeFinalRisk` returns `score = round(urgency*0.5 + metLevel*2.5*0.5, 1)`
and classifies with inclusive upper bounds: `score ≤ 3.0 → Low/green`,
`≤ 6.0 → Moderate/yellow`, `≤ 8.0 → High/orange`, else `Critical/red`. -/
theorem compute_final_risk_formula (u : ℚ) (m : ℤ)
    (hu0 : 0 ≤ u) (hu1 : u ≤ 10) (hm0 : 0 ≤ m) (hm1 : m ≤ 4) :
    compute_final_risk (.vnum u) m
      = some (round1 (u * (1 / 2) + (m : ℚ) * (5 / 2) * (1 / 2)),
          classify (round1 (u * (1 / 2) + (m : ℚ) * (5 / 2) * (1 / 2)))) ∧
    ∀ s : ℚ, (s ≤ 3 → classify s = ("Low", "green")) ∧
      (3 < s → s ≤ 6 → classify s = ("Moderate", "yellow")) ∧
      (6 < s → s ≤ 8 → classify s = ("High", "orange")) ∧
      (8 < s → classify s = ("Critical", "red")) := by
  have hm0q : (0 : ℚ) ≤ (m : ℚ) := by exact_mod_cast hm0
  have hm1q : (m : ℚ) ≤ 4 := by exact_mod_cast hm1
  have hmq0 : (0 : ℚ) ≤ (m : ℚ) * (5 / 2) := by nlinarith
  have hmq1 : (m : ℚ) * (5 / 2) ≤ 10 := by nlinarith
  exact ⟨by rw [compute_final_risk_vnum, clampQ_eq_self hu0 hu1, clampQ_eq_self hmq0 hmq1],
    classify_thresholds⟩

/-- C4 witness: urgency 8.0 with metLevel 2 yields score 6.5 classified
High/orange, by `compute_final_risk_formula` at `(8, 2)`. -/
theorem compute_final_risk_formula_witness :
    compute_final_risk (.vnum 8) 2 = some (13 / 2, "High", "orange") := by
  have h := (compute_final_risk_formula 8 2 (by norm_num) (by norm_num) (by norm_num)
    (by norm_num)).1
  rw [h]
  with_unfolding_all decide

/-- C2 counterexample: `computeFinalRisk` does raise on a truthy non-numeric
urgency string — `float("abc" or 0.0)` is `float("abc")`, a `ValueError`
(`none`), so the "core scoring functions never raise" part of the claim is
false at this input. -/
theorem compute_final_risk_raises_nonnumeric :
    compute_final_risk (.vstr "abc") 0 = none := by
  with_unfolding_all decide

/-- C2 (amended): absent (`None`) or falsy urgency is treated as 0 and a
numeric urgency never raises, but a truthy non-numeric urgency string makes
`computeFinalRisk` raise; `severityToLevel` maps unparseable severity to
level 0 and `radiusFromScore` maps a non-numeric score to the Low radius,
neither ever raising. -/
theorem numeric_parse_fallbacks :
    (∀ m, compute_final_risk .vnone m = compute_final_risk (.vnum 0) m) ∧
    (∀ v m, truthy v = false → compute_final_risk v m = compute_final_risk (.vnum 0) m) ∧
    (∀ q m, compute_final_risk (.vnum q) m ≠ none) ∧
    (∀ s m, s ≠ "" → pyFloat s = none → compute_final_risk (.vstr s) m = none) ∧
    (∀ s, pyInt s = none →
      s.trim.toLower ∉ (["red", "emergency", "severe", "orange", "warning", "amber", "watch",
        "yellow", "advisory", "info", "information"] : List String) →
      severity_to_level (.vstr s) = 0) ∧
    (∀ v, pyFloatOfVal v = none → hazard_radius_from_score v = RADIUS_LOW_M) := by
  refine ⟨fun m => rfl, fun v m h => ?_, fun q m => ?_, fun s m hne hval => ?_,
    fun s hint hmem => ?_, fun v h => ?_⟩
  · have h0 : truthy (Val.vnum 0) = false := by with_unfolding_all rfl
    simp [compute_final_risk, h, h0]
  · rw [compute_final_risk_vnum]
    simp
  · have ht : truthy (.vstr s) = true := by simp [truthy, bne_iff_ne, hne]
    simp [compute_final_risk, ht, pyFloatOfVal, hval]
  · simp only [List.mem_cons, List.not_mem_nil, or_false, not_or] at hmem
    obtain ⟨h1, h2, h3, h4, h5, h6, h7, h8, h9, h10, h11⟩ := hmem
    simp [severity_to_level, hint, h1, h2, h3, h4, h5, h6, h7, h8, h9, h10, h11]
  · simp [hazard_radius_from_score, h]

/-- C2 witness: `numeric_parse_fallbacks` applied at concrete inputs. -/
theorem numeric_parse_fallbacks_witness :
    compute_final_risk .vnone 3 = compute_final_risk (.vnum 0) 3 ∧
    compute_final_risk (.vnum 7) 1 ≠ none ∧
    compute_final_risk (.vstr "xyz") 2 = none ∧
    severity_to_level (.vstr "garbage") = 0 ∧
    hazard_radius_from_score (.vstr "n/a") = RADIUS_LOW_M :=
  ⟨numeric_parse_fallbacks.1 3,
   numeric_parse_fallbacks.2.2.1 7 1,
   numeric_parse_fallbacks.2.2.2.1 "xyz" 2 (by decide) (by with_unfolding_all decide),
   numeric_parse_fallbacks.2.2.2.2.1 "garbage" (by with_unfolding_all decide)
     (by with_unfolding_all decide),
   numeric_parse_fallbacks.2.2.2.2.2 (.vstr "n/a") (by with_unfolding_all decide)⟩

/-- C7: annotation is idempotent — re-annotating an already-annotated hazard
list with the same weather yields the same list (in particular identical
`radius_m` values; the weather factor is not applied twice). -/
theorem annotate_idempotent (hazards : List Hazard) (weather : String) :
    annotate_hazards_with_radius (annotate_hazards_with_radius hazards weather) weather
      = annotate_hazards_with_radius hazards weather := by
  unfold annotate_hazards_with_radius
  rw [List.map_map]
  refine List.map_congr_left fun hz _ => ?_
  cases hz
  rfl

/-- C5: `annotateWithRadius` sets each hazard's `radius_m` to
`round(base * weatherScale weather)`, where the base prefers `risk_level`
over `final_score` and falls back to the Low radius, and `weatherScale`
maps the storm family to 1.8, the rain family to 1.3 and anything else
(including empty) to 1.0; a Critical hazard under "storm" weather gets
radius 18000 m from the default base 10000 m. -/
theorem annotate_radius_spec :
    (∀ hazards w, annotate_hazards_with_radius hazards w = hazards.map fun hz =>
        { hz with radius_m := some (pyRound ((hazard_base_radius hz : ℚ) * weather_scale w)) }) ∧
    (∀ hz : Hazard, ∀ lv, hz.risk_level = some lv →
        hazard_base_radius hz = hazard_radius_from_level (some lv)) ∧
    (∀ hz : Hazard, ∀ v, hz.risk_level = none → hz.final_score = some v →
        hazard_base_radius hz = hazard_radius_from_score v) ∧
    (∀ hz : Hazard, hz.risk_level = none → hz.final_score = none →
        hazard_base_radius hz = RADIUS_LOW_M) ∧
    (∀ w ∈ (["storm", "thunderstorm", "heavy rain", "tropical storm"] : List String),
        weather_scale w = 9 / 5) ∧
    (∀ w ∈ (["rain", "fog", "haze", "drizzle"] : List String), weather_scale w = 13 / 10) ∧
    weather_scale "" = 1 ∧
    (∀ w, w.trim.toLower ∉ (["storm", "thunderstorm", "heavy rain", "tropical storm",
        "rain", "fog", "haze", "drizzle"] : List String) → weather_scale w = 1) ∧
    annotate_hazards_with_radius [⟨0, 0, some "Critical", none, none⟩] "storm"
      = [⟨0, 0, some "Critical", none, some 18000⟩] := by
  refine ⟨fun hazards w => rfl, fun hz lv h => ?_, fun hz v h1 h2 => ?_, fun hz h1 h2 => ?_,
    fun w hw => ?_, fun w hw => ?_, rfl, fun w hmem => ?_, ?_⟩
  · simp [hazard_base_radius, h]
  · simp [hazard_base_radius, h1, h2]
  · simp [hazard_base_radius, h1, h2]
  · fin_cases hw <;>
      simp [weather_scale, tl_storm, tl_thunderstorm, tl_heavy_rain, tl_tropical]
  · fin_cases hw <;> simp [weather_scale, tl_rain, tl_fog, tl_haze, tl_drizzle]
  · by_cases hw : w = ""
    · simp [weather_scale, hw]
    · simp only [List.mem_cons, List.not_mem_nil, or_false, not_or] at hmem
      obtain ⟨h1, h2, h3, h4, h5, h6, h7, h8⟩ := hmem
      simp [weather_scale, hw, h1, h2, h3, h4, h5, h6, h7, h8]
  · have hb : hazard_base_radius ⟨0, 0, some "Critical", none, none⟩ = 10000 := by
      simp [hazard_base_radius, hazard_radius_from_level, tl_critical, RADIUS_CRITICAL_M]
    have hs : weather_scale "storm" = 9 / 5 := by simp [weather_scale, tl_storm]
    have harg : ((hazard_base_radius ⟨0, 0, some "Critical", none, none⟩ : ℤ) : ℚ)
        * weather_scale "storm" = ((18000 : ℤ) : ℚ) := by
      rw [hb, hs]
      norm_num
    simp [annotate_hazards_with_radius, harg, pyRound_intCast]
    exact_mod_cast pyRound_intCast 18000

/-- C5 witness: `annotate_radius_spec` applied at concrete inputs. -/
theorem annotate_radius_spec_witness :
    hazard_base_radius ⟨0, 0, some "High", some (.vnum 90), none⟩
        = hazard_radius_from_level (some "High") ∧
    hazard_base_radius ⟨0, 0, none, some (.vnum 90), none⟩
        = hazard_radius_from_score (.vnum 90) ∧
    hazard_base_radius ⟨0, 0, none, none, none⟩ = RADIUS_LOW_M ∧
    weather_scale "storm" = 9 / 5 ∧
    weather_scale "rain" = 13 / 10 ∧
    weather_scale "sunny" = 1 :=
  ⟨annotate_radius_spec.2.1 _ "High" rfl,
   annotate_radius_spec.2.2.1 _ (.vnum 90) rfl rfl,
   annotate_radius_spec.2.2.2.1 _ rfl rfl,
   annotate_radius_spec.2.2.2.2.1 "storm" (by simp),
   annotate_radius_spec.2.2.2.2.2.1 "rain" (by simp),
   annotate_radius_spec.2.2.2.2.2.2.2.1 "sunny" (by simp [tl_sunny])⟩

/-- C9: every persisted risk assessment has its stored `final_score` clamped
into `[1,10]`, and the stored `risk_level` is a deterministic function of
the stored `final_score`: equal stored scores give equal levels. -/
theorem written_assessment_invariant (u₁ u₂ : Val) (m₁ m₂ : ℤ) (w₁ w₂ : ℚ) (l₁ l₂ : String)
    (h₁ : written_assessment u₁ m₁ = some (w₁, l₁))
    (h₂ : written_assessment u₂ m₂ = some (w₂, l₂)) :
    (1 ≤ w₁ ∧ w₁ ≤ 10) ∧ (w₁ = w₂ → l₁ = l₂) := by
  obtain ⟨s₁, hs₁0, hs₁10, hw₁, hl₁⟩ := written_assessment_cases h₁
  obtain ⟨s₂, hs₂0, hs₂10, hw₂, hl₂⟩ := written_assessment_cases h₂
  constructor
  · subst hw₁
    exact ⟨le_max_left _ _, max_le (by norm_num) hs₁10⟩
  · intro hww
    subst hw₁ hw₂ hl₁ hl₂
    rcases le_or_lt s₁ 1 with hc1 | hc1
    · have hc2 : s₂ ≤ 1 := by
        by_contra hgt
        push_neg at hgt
        rw [max_eq_left hc1, max_eq_right (le_of_lt hgt)] at hww
        linarith
      have t₁ := (classify_thresholds s₁).1 (by linarith)
      have t₂ := (classify_thresholds s₂).1 (by linarith)
      rw [t₁, t₂]
    · rcases le_or_lt s₂ 1 with hc2 | hc2
      · rw [max_eq_right (le_of_lt hc1), max_eq_left hc2] at hww
        linarith
      · rw [max_eq_right (le_of_lt hc1), max_eq_right (le_of_lt hc2)] at hww
        rw [hww]

/-- C9 witness: `written_assessment_invariant` at two identical concrete
assessments (urgency 8, MET level 2, stored score 6.5, level High). -/
theorem written_assessment_invariant_witness :
    ((1 : ℚ) ≤ 13 / 2 ∧ (13 / 2 : ℚ) ≤ 10) ∧ ((13 / 2 : ℚ) = 13 / 2 → "High" = "High") :=
  written_assessment_invariant (.vnum 8) (.vnum 8) 2 2 (13 / 2) (13 / 2) "High" "High"
    (by with_unfolding_all decide) (by with_unfolding_all decide)

theorem tl_RED : ("RED " : String).trim.toLower = "red" := by with_unfolding_all rfl

theorem tl_unknown : ("unknown" : String).trim.toLower = "unknown" := by with_unfolding_all rfl

theorem severity_to_level_range (sev : Val) :
    0 ≤ severity_to_level sev ∧ severity_to_level sev ≤ 4 := by
  cases sev with
  | vnone => simp [severity_to_level]
  | vnum q =>
    simp only [severity_to_level]
    exact ⟨le_max_left _ _, max_le (by norm_num) (min_le_left _ _)⟩
  | vstr s =>
    simp only [severity_to_level]
    cases hp : pyInt s with
    | some n => exact ⟨le_max_left _ _, max_le (by norm_num) (min_le_left _ _)⟩
    | none => split_ifs <;> norm_num

theorem le_max_foldl (l : List WarningResult) (b : ℤ) :
    b ≤ l.foldl (fun m r => max m (severity_to_level (sevField r))) b := by
  induction l generalizing b with
  | nil => exact le_refl b
  | cons a t ih => exact le_trans (le_max_left _ _) (ih _)

theorem mem_le_max_foldl {l : List WarningResult} {r : WarningResult} (h : r ∈ l) (b : ℤ) :
    severity_to_level (sevField r) ≤ l.foldl (fun m x => max m (severity_to_level (sevField x))) b := by
  induction l generalizing b with
  | nil => cases h
  | cons a t ih =>
    rcases List.mem_cons.mp h with rfl | ht
    · exact le_trans (le_max_right _ _) (le_max_foldl t _)
    · exact ih ht _

theorem max_foldl_cases (l : List WarningResult) (b : ℤ) :
    l.foldl (fun m x => max m (severity_to_level (sevField x))) b = b ∨
      ∃ r ∈ l, l.foldl (fun m x => max m (severity_to_level (sevField x))) b
        = severity_to_level (sevField r) := by
  induction l generalizing b with
  | nil => exact Or.inl rfl
  | cons a t ih =>
    rcases ih (max b (severity_to_level (sevField a))) with h | ⟨r, hr, he⟩
    · rcases le_total (severity_to_level (sevField a)) b with hba | hba
      · left
        rw [List.foldl_cons, h, max_eq_left hba]
      · right
        exact ⟨a, List.mem_cons_self a t, by rw [List.foldl_cons, h, max_eq_right hba]⟩
    · right
      exact ⟨r, List.mem_cons_of_mem a hr, by rw [List.foldl_cons, he]⟩

/-- C8: `severityToLevel` always lands in `[0,4]`: absent input gives 0, an
integer-parsing input is clamped to `[0,4]`, named severities map
case-insensitively (red/emergency/severe to 4, orange/warning to 3,
amber/watch to 2, yellow/advisory/info/information to 1, anything else to
0); `maxSeverityLevel` is the maximum level over all results, 0 on empty
input, and is total (never raises). -/
theorem severity_level_spec :
    (∀ sev, 0 ≤ severity_to_level sev ∧ severity_to_level sev ≤ 4) ∧
    severity_to_level .vnone = 0 ∧
    (∀ s n, pyInt s = some n → severity_to_level (.vstr s) = max 0 (min 4 n)) ∧
    (∀ s, pyInt s = none →
      (s.trim.toLower ∈ (["red", "emergency", "severe"] : List String) →
        severity_to_level (.vstr s) = 4) ∧
      (s.trim.toLower ∈ (["orange", "warning"] : List String) →
        severity_to_level (.vstr s) = 3) ∧
      (s.trim.toLower ∈ (["amber", "watch"] : List String) →
        severity_to_level (.vstr s) = 2) ∧
      (s.trim.toLower ∈ (["yellow", "advisory", "info", "information"] : List String) →
        severity_to_level (.vstr s) = 1) ∧
      (s.trim.toLower ∉ (["red", "emergency", "severe", "orange", "warning", "amber", "watch",
          "yellow", "advisory", "info", "information"] : List String) →
        severity_to_level (.vstr s) = 0)) ∧
    max_severity_level [] = 0 ∧
    (∀ results, 0 ≤ max_severity_level results ∧ max_severity_level results ≤ 4) ∧
    (∀ results, ∀ r ∈ results, severity_to_level (sevField r) ≤ max_severity_level results) ∧
    (∀ results, max_severity_level results = 0 ∨
      ∃ r ∈ results, max_severity_level results = severity_to_level (sevField r)) := by
  refine ⟨severity_to_level_range, rfl, fun s n h => by simp [severity_to_level, h],
    fun s h => ⟨?_, ?_, ?_, ?_, ?_⟩, rfl, fun results => ⟨le_max_foldl results 0, ?_⟩,
    fun results r hr => mem_le_max_foldl hr 0, fun results => max_foldl_cases results 0⟩
  · intro hm
    simp only [List.mem_cons, List.not_mem_nil, or_false] at hm
    rcases hm with hm | hm | hm <;> simp [severity_to_level, h, hm]
  · intro hm
    simp only [List.mem_cons, List.not_mem_nil, or_false] at hm
    rcases hm with hm | hm <;> simp [severity_to_level, h, hm]
  · intro hm
    simp only [List.mem_cons, List.not_mem_nil, or_false] at hm
    rcases hm with hm | hm <;> simp [severity_to_level, h, hm]
  · intro hm
    simp only [List.mem_cons, List.not_mem_nil, or_false] at hm
    rcases hm with hm | hm | hm | hm <;> simp [severity_to_level, h, hm]
  · intro hm
    simp only [List.mem_cons, List.not_mem_nil, or_false, not_or] at hm
    obtain ⟨h1, h2, h3, h4, h5, h6, h7, h8, h9, h10, h11⟩ := hm
    simp [severity_to_level, h, h1, h2, h3, h4, h5, h6, h7, h8, h9, h10, h11]
  · rcases max_foldl_cases results 0 with hc | ⟨r, _, he⟩
    · rw [max_severity_level, hc]
      norm_num
    · rw [max_severity_level, he]
      exact (severity_to_level_range _).2

/-- C8 witness: `severity_level_spec` applied at concrete severities. -/
theorem severity_level_spec_witness :
    (0 ≤ severity_to_level (.vstr "red") ∧ severity_to_level (.vstr "red") ≤ 4) ∧
    severity_to_level (.vstr "7") = max 0 (min 4 7) ∧
    severity_to_level (.vstr "RED ") = 4 ∧
    severity_to_level (.vstr "unknown") = 0 ∧
    (0 ≤ max_severity_level [⟨.vstr "red", .vnone, .vnone⟩] ∧
      max_severity_level [⟨.vstr "red", .vnone, .vnone⟩] ≤ 4) :=
  ⟨severity_level_spec.1 _,
   severity_level_spec.2.2.1 "7" 7 (by with_unfolding_all decide),
   (severity_level_spec.2.2.2.1 "RED " (by with_unfolding_all decide)).1
     (by simp [tl_RED]),
   (severity_level_spec.2.2.2.1 "unknown" (by with_unfolding_all decide)).2.2.2.2
     (by simp [tl_unknown]),
   severity_level_spec.2.2.2.2.2.1 _⟩

/-! ## Route selection lemmas -/

theorem dist_list_ne_nil (dist : DistFn) {hazards : List Hazard} {points : List Point}
    (hh : hazards ≠ []) (hp : points ≠ []) : dist_list dist hazards points ≠ [] := by
  cases hazards with
  | nil => exact absurd rfl hh
  | cons hz t =>
    cases points with
    | nil => exact absurd rfl hp
    | cons p pt => simp [dist_list]

theorem score_routes_ok (dist : DistFn) (routes : List Route) (hazards : List Hazard)
    (hh : hazards ≠ []) (hp : ∀ r ∈ routes, r.points ≠ []) :
    score_routes dist routes hazards = .ok (scored_list dist routes hazards) := by
  induction routes with
  | nil => rfl
  | cons r rest ih =>
    have hrest : ∀ x ∈ rest, x.points ≠ [] := fun x hx => hp x (List.mem_cons_of_mem r hx)
    by_cases hint : route_intersects_hazard dist r.points hazards = true
    · simp [score_routes, hint, scored_list, List.filter_cons, ih hrest]
    · have hint' : route_intersects_hazard dist r.points hazards = false := by
        revert hint
        cases route_intersects_hazard dist r.points hazards <;> simp
      have hdl := dist_list_ne_nil dist hh (hp r (List.mem_cons_self r rest))
      cases hdm : dist_list dist hazards r.points with
      | nil => exact absurd hdm hdl
      | cons x xs =>
        simp [score_routes, hint', hdm, ih hrest, scored_list, List.filter_cons, scored_of,
          list_min, Except.map]

theorem insert_by_duration_ne_nil (s : Scored) (l : List Scored) :
    insert_by_duration s l ≠ [] := by
  cases l with
  | nil => simp [insert_by_duration]
  | cons t ts =>
    unfold insert_by_duration
    split <;> simp

theorem sort_by_duration_eq_nil {l : List Scored} : sort_by_duration l = [] ↔ l = [] := by
  cases l with
  | nil => simp [sort_by_duration]
  | cons s ss => simp [sort_by_duration, insert_by_duration_ne_nil]

theorem first_min_ne_none (x : Scored) (xs : List Scored) : first_min (x :: xs) ≠ none := by
  unfold first_min
  cases first_min xs <;> simp

theorem sort_head_first_min (l : List Scored) :
    (sort_by_duration l).head? = first_min l := by
  induction l with
  | nil => rfl
  | cons x xs ih =>
    show (insert_by_duration x (sort_by_duration xs)).head? = first_min (x :: xs)
    cases hs : sort_by_duration xs with
    | nil =>
      have hxs : xs = [] := sort_by_duration_eq_nil.mp hs
      subst hxs
      rfl
    | cons y ys =>
      have hfm : first_min xs = some y := by
        rw [← ih, hs]
        rfl
      have hrhs : first_min (x :: xs) = some (if y.duration_s < x.duration_s then y else x) := by
        simp only [first_min, hfm]
      rw [hrhs]
      unfold insert_by_duration
      by_cases hc : x.duration_s ≤ y.duration_s
      · rw [if_pos hc, if_neg (not_lt.mpr hc)]
        rfl
      · rw [if_neg hc, if_pos (lt_of_not_le hc)]
        rfl

theorem first_min_spec {l : List Scored} {b : Scored} (h : first_min l = some b) :
    b ∈ l ∧ ∀ s ∈ l, b.duration_s ≤ s.duration_s := by
  induction l generalizing b with
  | nil => cases h
  | cons x xs ih =>
    unfold first_min at h
    cases hm : first_min xs with
    | none =>
      rw [hm] at h
      cases xs with
      | nil =>
        simp only [Option.some.injEq] at h
        subst h
        exact ⟨List.mem_singleton_self _, by simp⟩
      | cons a t => exact absurd hm (first_min_ne_none a t)
    | some y =>
      rw [hm] at h
      simp only [Option.some.injEq] at h
      obtain ⟨hy, hmin⟩ := ih hm
      by_cases hc : y.duration_s < x.duration_s
      · rw [if_pos hc] at h
        subst h
        refine ⟨List.mem_cons_of_mem x hy, fun s hs => ?_⟩
        rcases List.mem_cons.mp hs with rfl | hs
        · exact le_of_lt hc
        · exact hmin s hs
      · rw [if_neg hc] at h
        subst h
        refine ⟨List.mem_cons_self x xs, fun s hs => ?_⟩
        rcases List.mem_cons.mp hs with rfl | hs
        · exact le_refl _
        · exact le_trans (not_lt.mp hc) (hmin s hs)

theorem first_min_eq_none {l : List Scored} : first_min l = none ↔ l = [] := by
  cases l with
  | nil => simp [first_min]
  | cons x xs => simp [first_min_ne_none]

theorem select_from_scored_some {scored : List Scored} {hazards : List Hazard} {b : Scored}
    (hb : first_min scored = some b) :
    select_from_scored scored hazards =
      .ok b ((scored.filter fun s => s.polyline != b.polyline).map fun s => s.polyline)
        hazards := by
  unfold select_from_scored
  cases hs : sort_by_duration scored with
  | nil =>
    rw [sort_by_duration_eq_nil.mp hs] at hb
    simp [first_min] at hb
  | cons best tail =>
    have hhead : (sort_by_duration scored).head? = some best := by
      rw [hs]
      rfl
    rw [sort_head_first_min, hb] at hhead
    simp only [Option.some.injEq] at hhead
    subst hhead
    rfl

theorem select_from_scored_none {scored : List Scored} {hazards : List Hazard}
    (hnone : first_min scored = none) :
    select_from_scored scored hazards = .noSafeRoutes hazards := by
  rw [first_min_eq_none.mp hnone]
  rfl

theorem select_routes_eq (dist : DistFn) (routes : List Route) (hazards : List Hazard)
    (hh : hazards ≠ []) (hp : ∀ r ∈ routes, r.points ≠ []) :
    select_routes dist routes hazards =
      select_from_scored (scored_list dist routes hazards) hazards := by
  unfold select_routes
  rw [score_routes_ok dist routes hazards hh hp]

theorem scored_list_mem {dist : DistFn} {routes : List Route} {hazards : List Hazard}
    {s : Scored} (h : s ∈ scored_list dist routes hazards) :
    ∃ r ∈ routes, route_intersects_hazard dist r.points hazards = false ∧
      scored_of dist hazards r = s := by
  obtain ⟨r, hr, hs⟩ := List.mem_map.mp h
  obtain ⟨hmem, hfil⟩ := List.mem_filter.mp hr
  exact ⟨r, hmem, by simpa using hfil, hs⟩

theorem scored_list_mem_of (dist : DistFn) {routes : List Route} {hazards : List Hazard}
    {r : Route} (hmem : r ∈ routes)
    (hsafe : route_intersects_hazard dist r.points hazards = false) :
    scored_of dist hazards r ∈ scored_list dist routes hazards :=
  List.mem_map_of_mem _ (List.mem_filter.mpr ⟨hmem, by simp [hsafe]⟩)

theorem tl_clear : ("clear" : String).trim.toLower = "clear" := by with_unfolding_all rfl

theorem annotate_ne_nil {hazards : List Hazard} (h : hazards ≠ []) (w : String) :
    annotate_hazards_with_radius hazards w ≠ [] := by
  cases hazards with
  | nil => exact absurd rfl h
  | cons a t => simp [annotate_hazards_with_radius]

theorem annotate_critical_clear :
    annotate_hazards_with_radius [⟨0, 0, some "Critical", none, none⟩] "clear"
      = [⟨0, 0, some "Critical", none, some 10000⟩] := by
  have hb : hazard_base_radius ⟨0, 0, some "Critical", none, none⟩ = 10000 := by
    simp [hazard_base_radius, hazard_radius_from_level, tl_critical, RADIUS_CRITICAL_M]
  have hs : weather_scale "clear" = 1 := by simp [weather_scale, tl_clear]
  have harg : ((hazard_base_radius ⟨0, 0, some "Critical", none, none⟩ : ℤ) : ℚ)
      * weather_scale "clear" = ((10000 : ℤ) : ℚ) := by
    rw [hb, hs]
    norm_num
  simp [annotate_hazards_with_radius, harg, pyRound_intCast]
  exact_mod_cast pyRound_intCast 10000

theorem far_route_safe :
    route_intersects_hazard (fun _ _ => 1000) [(0, 0)]
      (annotate_hazards_with_radius [⟨0, 0, some "Critical", none, none⟩] "clear") = false := by
  rw [annotate_critical_clear]
  simp [route_intersects_hazard, hazard_eff_radius]
  norm_num

/-- C1 (code bug): with an empty hazard list and two safe candidate routes
of durations 100 s and 50 s, the `min(...)` comprehension at 4-polyline.py
line 350 runs over an empty generator and raises `ValueError`, which the
top-level `except` turns into a 500 error response — instead of the claimed
outcome (50 s route best, 100 s route sole alternative, sentinel
`min_dist`, no crash). -/
theorem empty_hazards_min_crash :
    handler_select (fun _ _ => 0)
      [⟨"A", [(0, 0)], some 100, 7⟩, ⟨"B", [(0, 0)], some 50, 7⟩] [] "clear"
      = .httpError "min() arg is an empty sequence" := by
  simp [handler_select, annotate_hazards_with_radius, select_routes, score_routes,
    route_intersects_hazard, dist_list]

/-- C3 counterexample: a hazard carrying `radius_m = 0` is falsy in
`hz.get("radius_m") or hazard_radius_from_level(...)`, so the filter uses
the level-derived fallback radius (Low, 1500 m) and flags a route point at
the hazard center as unsafe, although no point lies strictly inside the
hazard's stored `radius_m` of 0 — refuting the claimed iff against
`radius_m`. -/
theorem route_unsafe_at_zero_radius :
    route_intersects_hazard (fun _ _ => 0) [(0, 0)] [⟨0, 0, none, none, some 0⟩] = true ∧
    ¬ ((0 : ℚ) * 1000
        < (((⟨0, 0, none, none, some 0⟩ : Hazard).radius_m.getD 0 : ℤ) : ℚ)) := by
  constructor
  · simp [route_intersects_hazard, hazard_eff_radius, hazard_radius_from_level, RADIUS_LOW_M]
  · simp

/-- C3 (amended): the route filter flags a route unsafe iff some decoded
point lies strictly inside some hazard's effective radius under the
distance function in use, where the effective radius is `radius_m` when
present and nonzero and otherwise the radius derived from `risk_level`;
a point at exactly the effective radius is safe, at one meter less it is
unsafe, and an empty hazard set makes every route safe. -/
theorem route_intersects_hazard_spec (dist : DistFn) :
    (∀ points hazards, route_intersects_hazard dist points hazards = true ↔
      ∃ p ∈ points, ∃ hz ∈ hazards,
        dist p (hz.lat, hz.lng) * 1000 < (hazard_eff_radius hz : ℚ)) ∧
    (∀ hz : Hazard, ∀ r : ℤ, hz.radius_m = some r → r ≠ 0 → hazard_eff_radius hz = r) ∧
    (∀ points, route_intersects_hazard dist points [] = false) ∧
    (∀ p hz, dist p (hz.lat, hz.lng) * 1000 = (hazard_eff_radius hz : ℚ) →
      route_intersects_hazard dist [p] [hz] = false) ∧
    (∀ p hz, dist p (hz.lat, hz.lng) * 1000 = (hazard_eff_radius hz : ℚ) - 1 →
      route_intersects_hazard dist [p] [hz] = true) := by
  refine ⟨fun points hazards => ?_, fun hz r h hne => ?_, fun points => ?_,
    fun p hz h => ?_, fun p hz h => ?_⟩
  · simp [route_intersects_hazard, List.any_eq_true]
  · simp [hazard_eff_radius, h, hne]
  · simp [route_intersects_hazard]
  · simp [route_intersects_hazard, h]
  · simp only [route_intersects_hazard, List.any_cons, List.any_nil, Bool.or_false,
      decide_eq_true_eq, h]
    linarith

/-- C3 witness: `route_intersects_hazard_spec` at concrete inputs — empty
hazards are safe, a present nonzero `radius_m` is the effective radius,
a point at exactly 1500 m of a 1500 m hazard is safe and at 1499 m it is
unsafe. -/
theorem route_intersects_hazard_spec_witness :
    route_intersects_hazard (fun _ _ => 3 / 2) [(0, 0)] [] = false ∧
    hazard_eff_radius ⟨0, 0, none, none, some 7⟩ = 7 ∧
    route_intersects_hazard (fun _ _ => 3 / 2) [(0, 0)]
      [⟨0, 0, none, none, some 1500⟩] = false ∧
    route_intersects_hazard (fun _ _ => 1499 / 1000) [(0, 0)]
      [⟨0, 0, none, none, some 1500⟩] = true :=
  ⟨(route_intersects_hazard_spec _).2.2.1 _,
   (route_intersects_hazard_spec (fun _ _ => 0)).2.1 _ 7 rfl (by decide),
   (route_intersects_hazard_spec _).2.2.2.1 _ _
     (by simp [hazard_eff_radius]; norm_num),
   (route_intersects_hazard_spec _).2.2.2.2 _ _
     (by simp [hazard_eff_radius]; norm_num)⟩

/-- C6 counterexample: two safe routes share the encoded polyline "abc"
with durations 100 s and 50 s; the 50 s one is selected best, but the
alternatives list (filtered by polyline inequality at 4-polyline.py lines
384-387) is empty, so the other safe route is not returned as an
alternative, refuting "returns every other safe route as an alternative". -/
theorem duplicate_polyline_alternative_dropped :
    select_routes (fun _ _ => 1000000)
      [⟨"abc", [(0, 0)], some 100, 5⟩, ⟨"abc", [(0, 0)], some 50, 5⟩]
      [⟨0, 0, none, none, some 1500⟩]
      = .ok ⟨"abc", 50, 5, 1000000000⟩ [] [⟨0, 0, none, none, some 1500⟩] := by
  simp [select_routes, score_routes, route_intersects_hazard, dist_list, hazard_eff_radius,
    route_duration_s, Except.map]
  norm_num
  decide

/-- C6 (amended): with a nonempty hazard list (the empty case crashes, see
C1) and nonempty decoded point lists, when at least one safe route exists
the selector returns as best the safe route with minimal `duration_s`
(earliest in candidate order on ties — `first_min` is the head of the
stable ascending sort), exposes as alternatives the polylines of every
other safe route whose encoded polyline differs from the best one, and
includes the annotated hazards; when no safe route exists it returns the
no-safe-routes outcome, also carrying the annotated hazards. -/
theorem selector_sorted_best_spec (dist : DistFn) (routes : List Route)
    (hazards_raw : List Hazard) (w : String)
    (hh : hazards_raw ≠ [])
    (hp : ∀ r ∈ routes, r.points ≠ []) :
    ((∃ r ∈ routes, route_intersects_hazard dist r.points
        (annotate_hazards_with_radius hazards_raw w) = false) →
      ∃ best,
        first_min (scored_list dist routes (annotate_hazards_with_radius hazards_raw w))
          = some best ∧
        best ∈ scored_list dist routes (annotate_hazards_with_radius hazards_raw w) ∧
        (∀ s ∈ scored_list dist routes (annotate_hazards_with_radius hazards_raw w),
          best.duration_s ≤ s.duration_s) ∧
        handler_select dist routes hazards_raw w =
          .ok best
            (((scored_list dist routes (annotate_hazards_with_radius hazards_raw w)).filter
                fun s => s.polyline != best.polyline).map fun s => s.polyline)
            (annotate_hazards_with_radius hazards_raw w)) ∧
    ((∀ r ∈ routes, route_intersects_hazard dist r.points
        (annotate_hazards_with_radius hazards_raw w) = true) →
      handler_select dist routes hazards_raw w
        = .noSafeRoutes (annotate_hazards_with_radius hazards_raw w)) := by
  have hann := annotate_ne_nil hh w
  constructor
  · rintro ⟨r, hr, hsafe⟩
    have hmem := scored_list_mem_of dist hr hsafe
    have hne : scored_list dist routes (annotate_hazards_with_radius hazards_raw w) ≠ [] :=
      List.ne_nil_of_mem hmem
    cases hfm : first_min (scored_list dist routes (annotate_hazards_with_radius hazards_raw w))
      with
    | none => exact absurd (first_min_eq_none.mp hfm) hne
    | some best =>
      obtain ⟨hbmem, hbmin⟩ := first_min_spec hfm
      refine ⟨best, rfl, hbmem, hbmin, ?_⟩
      unfold handler_select
      rw [select_routes_eq dist routes _ hann hp, select_from_scored_some hfm]
  · intro hall
    have hnil : scored_list dist routes (annotate_hazards_with_radius hazards_raw w) = [] := by
      unfold scored_list
      have : (routes.filter fun r =>
          !route_intersects_hazard dist r.points (annotate_hazards_with_radius hazards_raw w))
          = [] :=
        List.filter_eq_nil_iff.mpr fun r hr => by simp [hall r hr]
      rw [this]
      rfl
    unfold handler_select
    rw [select_routes_eq dist routes _ hann hp,
      select_from_scored_none (by rw [hnil]; rfl)]

/-- C6 witness: `selector_sorted_best_spec` at a concrete scenario — one
far-away Critical hazard, two safe routes "A" (100 s) and "B" (50 s). -/
theorem selector_sorted_best_spec_witness :
    ∃ best,
      first_min (scored_list (fun _ _ => 1000)
        [⟨"A", [(0, 0)], some 100, 7⟩, ⟨"B", [(0, 0)], some 50, 9⟩]
        (annotate_hazards_with_radius [⟨0, 0, some "Critical", none, none⟩] "clear"))
        = some best ∧
      best ∈ scored_list (fun _ _ => 1000)
        [⟨"A", [(0, 0)], some 100, 7⟩, ⟨"B", [(0, 0)], some 50, 9⟩]
        (annotate_hazards_with_radius [⟨0, 0, some "Critical", none, none⟩] "clear") ∧
      (∀ s ∈ scored_list (fun _ _ => 1000)
          [⟨"A", [(0, 0)], some 100, 7⟩, ⟨"B", [(0, 0)], some 50, 9⟩]
          (annotate_hazards_with_radius [⟨0, 0, some "Critical", none, none⟩] "clear"),
        best.duration_s ≤ s.duration_s) ∧
      handler_select (fun _ _ => 1000)
        [⟨"A", [(0, 0)], some 100, 7⟩, ⟨"B", [(0, 0)], some 50, 9⟩]
        [⟨0, 0, some "Critical", none, none⟩] "clear" =
        .ok best
          (((scored_list (fun _ _ => 1000)
              [⟨"A", [(0, 0)], some 100, 7⟩, ⟨"B", [(0, 0)], some 50, 9⟩]
              (annotate_hazards_with_radius [⟨0, 0, some "Critical", none, none⟩] "clear")).filter
              fun s => s.polyline != best.polyline).map fun s => s.polyline)
          (annotate_hazards_with_radius [⟨0, 0, some "Critical", none, none⟩] "clear") := by
  refine (selector_sorted_best_spec (fun _ _ => 1000)
    [⟨"A", [(0, 0)], some 100, 7⟩, ⟨"B", [(0, 0)], some 50, 9⟩]
    [⟨0, 0, some "Critical", none, none⟩] "clear" (by simp) ?_).1
    ⟨⟨"A", [(0, 0)], some 100, 7⟩, by simp, far_route_safe⟩
  intro r hr
  fin_cases hr <;> simp

/-- C10: a safe candidate route without a `duration` field is assigned
`duration_s = 0`; if every other safe route has positive duration (and at
least one hazard exists so that scoring does not crash, see C1), the
missing-duration route sorts first and is chosen as the best route. -/
theorem missing_duration_best (dist : DistFn) (routes : List Route) (hazards_raw : List Hazard)
    (w : String) (r0 : Route)
    (hh : hazards_raw ≠ [])
    (hp : ∀ r ∈ routes, r.points ≠ [])
    (hmem : r0 ∈ routes)
    (hdur : r0.duration = none)
    (hsafe : route_intersects_hazard dist r0.points
      (annotate_hazards_with_radius hazards_raw w) = false)
    (hpos : ∀ r ∈ routes,
      route_intersects_hazard dist r.points (annotate_hazards_with_radius hazards_raw w)
        = false →
      r ≠ r0 → 0 < route_duration_s r) :
    route_duration_s r0 = 0 ∧
    ∃ best alts,
      handler_select dist routes hazards_raw w
        = .ok best alts (annotate_hazards_with_radius hazards_raw w) ∧
      best.duration_s = 0 ∧ best.polyline = r0.polyline := by
  have h0 : route_duration_s r0 = 0 := by
    rw [route_duration_s, hdur]
    rfl
  have hann := annotate_ne_nil hh w
  have hs0 : scored_of dist (annotate_hazards_with_radius hazards_raw w) r0
      ∈ scored_list dist routes (annotate_hazards_with_radius hazards_raw w) :=
    scored_list_mem_of dist hmem hsafe
  cases hfm : first_min (scored_list dist routes (annotate_hazards_with_radius hazards_raw w))
    with
  | none => exact absurd (first_min_eq_none.mp hfm) (List.ne_nil_of_mem hs0)
  | some best =>
    obtain ⟨hbmem, hbmin⟩ := first_min_spec hfm
    obtain ⟨r', hr', hsafe', hscored⟩ := scored_list_mem hbmem
    have hble : best.duration_s ≤ 0 := by
      have hb := hbmin _ hs0
      simpa [scored_of, h0] using hb
    have hbdur : best.duration_s = route_duration_s r' := by
      rw [← hscored]
      rfl
    have hr0' : r' = r0 := by
      by_contra hne
      have hgt := hpos r' hr' hsafe' hne
      rw [← hbdur] at hgt
      omega
    subst hr0'
    refine ⟨h0, best,
      ((scored_list dist routes (annotate_hazards_with_radius hazards_raw w)).filter
        fun s => s.polyline != best.polyline).map fun s => s.polyline, ?_, ?_, ?_⟩
    · unfold handler_select
      rw [select_routes_eq dist routes _ hann hp, select_from_scored_some hfm]
    · omega
    · rw [← hscored]
      rfl

/-- C10 witness: `missing_duration_best` at a concrete scenario — route
"B" has no duration field, route "A" has duration 100 s, both safe against
one far-away hazard. -/
theorem missing_duration_best_witness :
    route_duration_s ⟨"B", [(0, 0)], none, 9⟩ = 0 ∧
    ∃ best alts,
      handler_select (fun _ _ => 1000)
        [⟨"A", [(0, 0)], some 100, 7⟩, ⟨"B", [(0, 0)], none, 9⟩]
        [⟨0, 0, some "Critical", none, none⟩] "clear"
        = .ok best alts
            (annotate_hazards_with_radius [⟨0, 0, some "Critical", none, none⟩] "clear") ∧
      best.duration_s = 0 ∧ best.polyline = "B" := by
  refine missing_duration_best (fun _ _ => 1000)
    [⟨"A", [(0, 0)], some 100, 7⟩, ⟨"B", [(0, 0)], none, 9⟩]
    [⟨0, 0, some "Critical", none, none⟩] "clear" ⟨"B", [(0, 0)], none, 9⟩
    (by simp) ?_ (by simp) rfl far_route_safe ?_
  · intro r hr
    fin_cases hr <;> simp
  · intro r hr hsafe hne
    fin_cases hr
    · simp [route_duration_s]
    · exact absurd rfl hne

end Tweequick
